import Mathlib

/-!
Verification development for the CadQuery server
(`python/cadquery-server/server.py`).

The Python source is shallowly embedded:

* `categorize_cadquery_error`, `get_error_suggestion` and
  `validate_safe_code` are pure string functions and are translated
  directly; Python's substring operator `in` is modelled by `strIn`
  (a Boolean infix search over the character lists).
* the `/execute` and `/export` request handlers and `run_with_timeout`
  are modelled over an abstract `Script` value recording the script's
  observable behaviour: its source text, the sequence of `show_object`
  calls it performs, the exception it raises (if any), and how long it
  runs (`none` = it never finishes).  The daemon worker thread of
  `run_with_timeout` is never cancelled by the source, so after a
  timeout it is still running exactly when the script has not finished
  by the deadline (`workerStillRunning`).
* `convert_to_mesh` is translated face by face: a `Face` carries an
  optional `Triangulation` (node list and 1-indexed triangle list), the
  integer orientation flag the source compares with `1`
  (`TopAbs_REVERSED`), and an optional local transform (`none` models
  `location.IsIdentity()`, where the source skips the multiply).
  Coordinates live in an arbitrary linear ordered field `K` with an
  explicit `sqrt : K → K` parameter standing for `math.sqrt`;
  numeric theorems instantiate `K := ℝ`, `sqrt := Real.sqrt`, while
  executable witnesses use `K := ℚ`.  Python list indexing
  `face_vertices[n - 1]` is modelled totally by `List.getD (n - 1)`;
  the two agree whenever the kernel invariant `1 ≤ n ≤ NodeCount`
  holds, which is the hypothesis under which the indexing theorems are
  stated (out-of-range indices would raise in the source).
-/

namespace CQServer

/-- Python's substring test `n in h` on character lists:
true iff `n` occurs contiguously in `h`. -/
def hasSubList (n : List Char) : List Char → Bool
  | [] => n.isEmpty
  | c :: t => n.isPrefixOf (c :: t) || hasSubList n t

/-- Python's `needle in hay` for strings. -/
def strIn (needle hay : String) : Bool :=
  hasSubList needle.toList hay.toList

/-! ## Error categorisation (`categorize_cadquery_error`, lines 71–88) -/

/-- `categorize_cadquery_error`: lowers the message, then an ordered
`if/elif` chain of substring tests, falling back to `"general"`. -/
def categorize_cadquery_error (error_msg : String) : String :=
  let m := error_msg.toLower
  if strIn "brep" m || strIn "command not done" m then "geometric_invalid"
  else if strIn "no pending wires" m || strIn "wire" m then "unclosed_wire"
  else if strIn "fillet" m then "fillet_error"
  else if strIn "boolean" m || strIn "union" m || strIn "cut" m then "boolean_operation"
  else if strIn "memory" m then "out_of_memory"
  else if strIn "timeout" m then "timeout"
  else "general"

/-- The `suggestions` dict of `get_error_suggestion` (lines 90–101),
as an association list in source order. -/
def suggestions : List (String × String) :=
  [("geometric_invalid", "Opération géométrique invalide. Vérifier: (1) Rayon fillet < épaisseur mur, (2) Dimensions positives en float, (3) Overlap correct pour booléens"),
   ("unclosed_wire", "Wire non fermé. Ajouter .close() après opérations 2D (lineTo, arc, etc.)"),
   ("fillet_error", "Échec fillet. S\x27assurer que rayon < longueur arêtes adjacentes."),
   ("boolean_operation", "Opération booléenne échouée. Essayer avec tolérance: .union(obj, tol=0.0001) ou .fuse()"),
   ("out_of_memory", "Mémoire insuffisante. Simplifier: moins de features, cellules plus grandes pour lattice."),
   ("timeout", "Timeout: Simplifier géométrie, augmenter taille cellules lattice, réduire nombre features."),
   ("general", "Vérifier syntaxe, paramètres en float, et usage API CadQuery.")]

/-- `get_error_suggestion`: dict lookup with the `"general"` entry as
default (`suggestions.get(error_type, suggestions['general'])`). -/
def get_error_suggestion (error_type : String) : String :=
  match suggestions.find? (fun p => p.1 == error_type) with
  | some p => p.2
  | none => "Vérifier syntaxe, paramètres en float, et usage API CadQuery."

/-- The `dangerous` denylist of `validate_safe_code` (line 105). -/
def dangerous : List String :=
  ["subprocess", "os.system", "eval(", "__import__", "open("]

/-- `validate_safe_code`: `not any(danger in code for danger in dangerous)`. -/
def validate_safe_code (code : String) : Bool :=
  !(dangerous.any (fun danger => strIn danger code))

/-- The spec's reading of §4.4 (`Modelled from the spec` only as a
comparison point for refinement): an ordered table of keyword groups,
first matching group wins, `"general"` fallback.  `categorize_cadquery_error`
is proved equal to `specClassify specGroups`. -/
def specGroups : List (List String × String) :=
  [(["brep", "command not done"], "geometric_invalid"),
   (["no pending wires", "wire"], "unclosed_wire"),
   (["fillet"], "fillet_error"),
   (["boolean", "union", "cut"], "boolean_operation"),
   (["memory"], "out_of_memory"),
   (["timeout"], "timeout")]

/-- First-match-wins classification over an ordered table of keyword
groups, on the lowered message. -/
def specClassify (groups : List (List String × String)) (error_msg : String) : String :=
  match groups with
  | [] => "general"
  | (kws, cat) :: rest =>
      if kws.any (fun k => strIn k error_msg.toLower) then cat
      else specClassify rest error_msg

/-! ## Script execution supervisor (`run_with_timeout`, `/execute`,
`/export`; lines 20–42, 111–183, 188–215)

A `Script α` records the observable behaviour of one user script run
by `exec`: the source text (used only by the denylist), the sequence of
`show_object(obj)` calls it performs, the exception it raises after
those calls (if any), and its running time in seconds (`none` = the
script never finishes, e.g. an infinite loop). -/

structure Script (α : Type) where
  code : String
  publishes : List α
  raises : Option String
  duration : Option Nat

/-- The `result_obj` slot of `exec_globals` after the script ran to
completion: initially `None`, and each `show_object(obj)` overwrites it
(lines 131–140). -/
def runResult {α : Type} (s : Script α) : Option α :=
  s.publishes.foldl (fun _ obj => some obj) none

/-- The two ways `run_with_timeout` can raise: the `TimeoutException`
of line 37 (carrying the deadline used in its message) or the worker's
own exception re-raised at line 40. -/
inductive RunErr where
  | timeoutErr (t : Nat) : RunErr
  | raised (msg : String) : RunErr
deriving DecidableEq

/-- The message of line 37: `f"Execution timed out after {timeout}s"`. -/
def timeoutMsg (t : Nat) : String :=
  "Execution timed out after " ++ toString t ++ "s"

/-- `run_with_timeout` (lines 20–42) applied to
`execute_cadquery_code` (lines 111–114): the caller joins the worker
for `timeout` seconds; if the worker is still alive it raises
`TimeoutException`; if the worker stored an exception it re-raises it;
otherwise it returns `exec_globals.get('result_obj')`. -/
def run_with_timeout {α : Type} (s : Script α) (timeout : Nat) : Except RunErr (Option α) :=
  match s.duration with
  | none => Except.error (RunErr.timeoutErr timeout)
  | some d =>
      if d ≤ timeout then
        match s.raises with
        | some m => Except.error (RunErr.raised m)
        | none => Except.ok (runResult s)
      else Except.error (RunErr.timeoutErr timeout)

/-- The worker thread is a daemon and is never cancelled (lines 30–37):
after `run_with_timeout` returns at the deadline it is still running
exactly when the script has not finished by then. -/
def workerStillRunning {α : Type} (s : Script α) (timeout : Nat) : Bool :=
  match s.duration with
  | none => true
  | some d => decide (timeout < d)

/-- The JSON body + HTTP status of a handler response, restricted to
the fields the handlers set (`error`, `error_type`, `suggestion`, and
the successful payload, carried here as the published shape that the
handler goes on to encode). -/
structure Resp (α : Type) where
  status : Nat
  error : Option String
  error_type : Option String
  suggestion : Option String
  result : Option α

/-- The `/execute` handler after the denylist check passed
(lines 128–169 together with the surrounding `except` of lines
171–183): run with timeout, report `timeout` errors with their canned
suggestion, re-raised script exceptions through
`categorize_cadquery_error`, a missing `result_obj` as the 400
no-result error, and otherwise succeed with the published shape. -/
def executePipeline {α : Type} (s : Script α) (timeout : Nat) : Resp α :=
  match run_with_timeout s timeout with
  | Except.error (RunErr.timeoutErr t) =>
      Resp.mk 500 (some (timeoutMsg t)) (some "timeout") (some (get_error_suggestion "timeout")) none
  | Except.error (RunErr.raised m) =>
      Resp.mk 500 (some m) (some (categorize_cadquery_error m))
        (some (get_error_suggestion (categorize_cadquery_error m))) none
  | Except.ok none =>
      Resp.mk 400 (some "No result - show_object() not called") none none none
  | Except.ok (some shape) =>
      Resp.mk 200 none none none (some shape)

/-- The fixed 400 response of line 126. -/
def unsafeResp (α : Type) : Resp α :=
  Resp.mk 400 (some "Code validation failed: unsafe imports") none none none

/-- The `/execute` handler (lines 116–183): read the optional timeout
(default 120), reject unsafe code before any execution, otherwise run
the pipeline. -/
def executeModel {α : Type} (s : Script α) (timeoutParam : Option Nat) : Resp α :=
  let timeout := timeoutParam.getD 120
  if validate_safe_code s.code then executePipeline s timeout
  else unsafeResp α

/-- The `/export` handler (lines 188–215) up to the exporter call: the
script is `exec`'d directly on the request-handling context — no
denylist check, no `run_with_timeout` — so a non-terminating script
never produces a response (`none`).  Script exceptions become the 400
`Code execution failed` error, a missing `result_obj` the 400
no-result error; otherwise the published shape is handed to the
exporter (success payload). -/
def exportModel {α : Type} (s : Script α) : Option (Resp α) :=
  match s.duration with
  | none => none
  | some _ =>
      some (match s.raises with
        | some m => Resp.mk 400 (some ("Code execution failed: " ++ m)) none none none
        | none =>
            match runResult s with
            | none => Resp.mk 400 (some "No result - show_object() not called") none none none
            | some shape => Resp.mk 200 none none none (some shape))

/-! ## Mesh conversion (`convert_to_mesh`, lines 265–369) -/

/-- A 3-D point (`gp_Pnt`) with coordinates in `K`. -/
structure Pnt (K : Type) where
  x : K
  y : K
  z : K
deriving DecidableEq

/-- A `Poly_Triangle`: three 1-based node indices, as returned by
`triangle.Get()`. -/
structure Tri where
  n1 : Nat
  n2 : Nat
  n3 : Nat
deriving DecidableEq

/-- A face's `Poly_Triangulation`: `Node(i)` is `nodes[i-1]`,
`NbNodes()` is `nodes.length`, `Triangle(i)` is `triangles[i-1]`,
`NbTriangles()` is `triangles.length`. -/
structure Triangulation (K : Type) where
  nodes : List (Pnt K)
  triangles : List Tri

/-- A face as `convert_to_mesh` reads it: `BRep_Tool.Triangulation_s`
may return nothing (`none`); `face.Orientation()` is the raw `TopAbs`
integer the source compares with `1` (`TopAbs_REVERSED`); the location
transform is `none` when `location.IsIdentity()` (the source skips the
multiply) and otherwise the map `node.Transform(trsf)` applies. -/
structure Face (K : Type) where
  triangulation : Option (Triangulation K)
  orientation : Nat
  transform : Option (Pnt K → Pnt K)

section MeshDefs

variable {K : Type} [LinearOrderedField K]

/-- Lines 297–302: the node, transformed unless the location is the
identity.  The transformed point is both appended to the global vertex
buffer and remembered in `face_vertices`. -/
def applyLoc (f : Face K) (p : Pnt K) : Pnt K :=
  match f.transform with
  | none => p
  | some t => t p

/-- The `face_vertices` list built at lines 296–302: the face's nodes
in order, after the location transform. -/
def faceWorldVertices (f : Face K) (tri : Triangulation K) : List (Pnt K) :=
  tri.nodes.map (applyLoc f)

/-- `vertices.extend([node.X(), node.Y(), node.Z()])` (line 301). -/
def pntCoords (p : Pnt K) : List K := [p.x, p.y, p.z]

/-- Lines 307–318 for one triangle: global indices
`idx_k = n_k - 1 + vertex_offset` (over `ℤ`, as in Python), emitted
`[idx1, idx3, idx2]` when `face_orientation == 1` and
`[idx1, idx2, idx3]` otherwise. -/
def triIndices (orientation : Nat) (off : Int) (t : Tri) : List Int :=
  let idx1 : Int := (t.n1 : Int) - 1 + off
  let idx2 : Int := (t.n2 : Int) - 1 + off
  let idx3 : Int := (t.n3 : Int) - 1 + off
  if orientation = 1 then [idx1, idx3, idx2] else [idx1, idx2, idx3]

/-- All index-buffer entries contributed by one face (lines 307–318). -/
def faceIndices (orientation : Nat) (off : Int) (tris : List Tri) : List Int :=
  tris.flatMap (triIndices orientation off)

variable (sqrt : K → K)

/-- Lines 327–336: fetch the triangle's corners from `face_vertices`
and form the cross product `(v2−v1)×(v3−v1)`.  Fetching is total via
`getD`; it matches Python indexing whenever `1 ≤ n_k ≤ NodeCount`. -/
def rawCross (fv : List (Pnt K)) (t : Tri) : K × K × K :=
  let v1 := fv.getD (t.n1 - 1) (Pnt.mk 0 0 0)
  let v2 := fv.getD (t.n2 - 1) (Pnt.mk 0 0 0)
  let v3 := fv.getD (t.n3 - 1) (Pnt.mk 0 0 0)
  let e1 := (v2.x - v1.x, v2.y - v1.y, v2.z - v1.z)
  let e2 := (v3.x - v1.x, v3.y - v1.y, v3.z - v1.z)
  (e1.2.1 * e2.2.2 - e1.2.2 * e2.2.1,
   e1.2.2 * e2.1 - e1.1 * e2.2.2,
   e1.1 * e2.2.1 - e1.2.1 * e2.1)

/-- `math.sqrt(nx*nx + ny*ny + nz*nz)` for a coordinate triple. -/
def norm3 (v : K × K × K) : K :=
  sqrt (v.1 * v.1 + v.2.1 * v.2.1 + v.2.2 * v.2.2)

/-- Lines 327–345 for one triangle: the cross product, divided by its
length when that is positive (left raw otherwise), then negated when
`face_orientation == 1`. -/
def triNormal (fv : List (Pnt K)) (orientation : Nat) (t : Tri) : K × K × K :=
  let c := rawCross fv t
  let length := norm3 sqrt c
  let n := if 0 < length then (c.1 / length, c.2.1 / length, c.2.2 / length) else c
  if orientation = 1 then (-n.1, -n.2.1, -n.2.2) else n

/-- One `vertex_normals[idx] += …` update (lines 347–352), the dict
modelled as a total function defaulting to `(0,0,0)`. -/
def addNormal (m : Nat → K × K × K) (i : Nat) (n : K × K × K) : Nat → K × K × K :=
  fun j => if j = i then (let c := m j; (c.1 + n.1, c.2.1 + n.2.1, c.2.2 + n.2.2)) else m j

/-- The `vertex_normals` accumulation loop (lines 323–352): for each
triangle, add its normal to the entries of all three of its corners. -/
def accumNormals (fv : List (Pnt K)) (orientation : Nat) (tris : List Tri) : Nat → K × K × K :=
  tris.foldl
    (fun m t =>
      let n := triNormal sqrt fv orientation t
      addNormal (addNormal (addNormal m (t.n1 - 1) n) (t.n2 - 1) n) (t.n3 - 1) n)
    (fun _ => (0, 0, 0))

/-- `i in vertex_normals` (line 355): node `i` (0-based) is a corner of
some triangle of the face. -/
def mentioned (tris : List Tri) (i : Nat) : Bool :=
  tris.any (fun t => t.n1 - 1 == i || t.n2 - 1 == i || t.n3 - 1 == i)

/-- Lines 354–363 for one node: normalise the accumulated sum if its
length is positive, else the `[0.0, 0.0, 1.0]` fallback; nodes in no
triangle get the fallback directly. -/
def nodeNormal (fv : List (Pnt K)) (orientation : Nat) (tris : List Tri) (i : Nat) : List K :=
  if mentioned tris i then
    let a := accumNormals sqrt fv orientation tris i
    let length := norm3 sqrt a
    if 0 < length then [a.1 / length, a.2.1 / length, a.2.2 / length] else [0, 0, 1]
  else [0, 0, 1]

/-- All normal-buffer entries contributed by one face
(`for i in range(triangulation.NbNodes())`, lines 354–363). -/
def faceNormals (fv : List (Pnt K)) (orientation : Nat) (tris : List Tri) (nbNodes : Nat) : List K :=
  (List.range nbNodes).flatMap (nodeNormal sqrt fv orientation tris)

/-- One iteration of the `while face_explorer.More()` loop
(lines 287–367) on the state
`(vertices, faces, normals, vertex_offset)`: a face with no
triangulation leaves the state unchanged; otherwise it appends its
vertex coordinates, its shifted triangle indices and its node normals,
and advances `vertex_offset` by its node count. -/
def meshFace (st : List K × List Int × List K × Nat) (f : Face K) :
    List K × List Int × List K × Nat :=
  match f.triangulation with
  | none => st
  | some tri =>
      let fv := faceWorldVertices f tri
      (st.1 ++ fv.flatMap pntCoords,
       st.2.1 ++ faceIndices f.orientation (st.2.2.2 : Int) tri.triangles,
       st.2.2.1 ++ faceNormals sqrt fv f.orientation tri.triangles tri.nodes.length,
       st.2.2.2 + tri.nodes.length)

/-- `convert_to_mesh` (lines 265–369): fold the face loop over the
shape's faces in explorer order, starting from empty buffers and
`vertex_offset = 0`, and return `(vertices, faces, normals)`. -/
def convert_to_mesh (shape : List (Face K)) : List K × List Int × List K :=
  let st := shape.foldl (meshFace sqrt) ([], [], [], 0)
  (st.1, st.2.1, st.2.2.1)

/-- `NbNodes()` of a face, 0 when it has no triangulation. -/
def faceNodeCount (f : Face K) : Nat :=
  match f.triangulation with
  | none => 0
  | some tri => tri.nodes.length

/-- `NbTriangles()` of a face, 0 when it has no triangulation. -/
def faceTriCount (f : Face K) : Nat :=
  match f.triangulation with
  | none => 0
  | some tri => tri.triangles.length

/-- `Σ NodeCount(F_i)` over the shape's faces. -/
def totalNodes (shape : List (Face K)) : Nat :=
  (shape.map faceNodeCount).sum

/-- `Σ TriangleCount(F_i)` over the shape's faces. -/
def totalTris (shape : List (Face K)) : Nat :=
  (shape.map faceTriCount).sum

/-- The kernel invariant `1 ≤ n_k ≤ NodeCount` (spec §3) for a list of
triangles over `nb` nodes. -/
def wfTris (nb : Nat) (tris : List Tri) : Prop :=
  ∀ t ∈ tris,
    (1 ≤ t.n1 ∧ t.n1 ≤ nb) ∧ (1 ≤ t.n2 ∧ t.n2 ≤ nb) ∧ (1 ≤ t.n3 ∧ t.n3 ≤ nb)

/-- Every triangle of every triangulated face references nodes of its
own face. -/
def wfShape (shape : List (Face K)) : Prop :=
  ∀ f ∈ shape, ∀ tri, f.triangulation = some tri →
    wfTris tri.nodes.length tri.triangles

/-- Group a flat coordinate buffer into consecutive triples. -/
def triples : List K → List (K × K × K)
  | x :: y :: z :: rest => (x, y, z) :: triples rest
  | _ => []

/-- `nodeNormal` as a coordinate triple (statement helper: the three
flat entries it emits, in order). -/
def nodeNormalT (fv : List (Pnt K)) (orientation : Nat) (tris : List Tri) (i : Nat) :
    K × K × K :=
  if mentioned tris i then
    let a := accumNormals sqrt fv orientation tris i
    let length := norm3 sqrt a
    if 0 < length then (a.1 / length, a.2.1 / length, a.2.2 / length) else (0, 0, 1)
  else (0, 0, 1)

end MeshDefs

/-- The worker finished within the deadline `T`. -/
def doneBy {α : Type} (s : Script α) (T : Nat) : Prop :=
  ∃ d, s.duration = some d ∧ d ≤ T

/-! ## Concrete fixtures (for witnesses and counterexamples) -/

/-- A placeholder for `math.sqrt` in rational witnesses whose
statements do not depend on square roots. -/
def sqrtQ : ℚ → ℚ := fun x => x

section Fixtures

variable (K : Type) [LinearOrderedField K]

/-- A single triangle in the `z = 0` plane. -/
def triFix : Triangulation K :=
  Triangulation.mk [Pnt.mk 0 0 0, Pnt.mk 1 0 0, Pnt.mk 0 1 0] [Tri.mk 1 2 3]

/-- That triangle as a Forward face with identity location. -/
def faceFwd : Face K := Face.mk (some (triFix K)) 0 none

/-- That triangle as a Reversed face with identity location. -/
def faceRev : Face K := Face.mk (some (triFix K)) 1 none

/-- A face the kernel could not triangulate. -/
def faceNone : Face K := Face.mk none 0 none

/-- A rigid rotation by 90° about the x-axis. -/
def rotX : Pnt K → Pnt K := fun p => Pnt.mk p.x (-p.z) p.y

/-- The fixture triangle on a face whose location is the rotation
`rotX` (a non-identity location). -/
def faceRot : Face K := Face.mk (some (triFix K)) 0 (some (rotX K))

/-- A triangulation with one node and no triangles (isolated node). -/
def triLone : Triangulation K := Triangulation.mk [Pnt.mk 0 0 0] []

/-- The isolated-node triangulation as a Forward face. -/
def faceLone : Face K := Face.mk (some (triLone K)) 0 none

end Fixtures

/-- The fixture triangle index triple. -/
def t123 : Tri := Tri.mk 1 2 3

/-- A safe script that never calls `show_object`. -/
def sNoPublish : Script Nat := Script.mk "a = 1" [] none (some 1)

/-- A safe script that never finishes. -/
def sLoop : Script Nat := Script.mk "while True: pass" [] none none

/-- An unsafe script (`eval(`) that would finish immediately. -/
def sEval : Script Nat := Script.mk "eval(data)" [] none (some 0)

/-- An unsafe script that publishes shape `7` and finishes. -/
def sEvalOk : Script Nat := Script.mk "show_object(eval(code))" [7] none (some 0)

/-- A safe script publishing shape `1`, then shape `2`. -/
def sPub : Script Nat := Script.mk "show_object(a); show_object(b)" [1, 2] none (some 1)

/-! ## Helper lemmas -/

section MeshLemmas

variable {K : Type} [LinearOrderedField K] (sqrt : K → K)

theorem length_flatMap_const {α β : Type} (g : α → List β) (k : Nat)
    (h : ∀ a, (g a).length = k) :
    ∀ l : List α, (l.flatMap g).length = k * l.length := by
  intro l
  induction l with
  | nil => simp
  | cons a t ih =>
      simp only [List.flatMap_cons, List.length_append, ih, h a, List.length_cons]
      ring

theorem length_triIndices (orientation : Nat) (off : Int) (t : Tri) :
    (triIndices orientation off t).length = 3 := by
  unfold triIndices
  split <;> rfl

theorem length_faceIndices (orientation : Nat) (off : Int) (tris : List Tri) :
    (faceIndices orientation off tris).length = 3 * tris.length :=
  length_flatMap_const _ 3 (length_triIndices orientation off) tris

theorem length_nodeNormal (fv : List (Pnt K)) (orientation : Nat) (tris : List Tri)
    (i : Nat) : (nodeNormal sqrt fv orientation tris i).length = 3 := by
  simp only [nodeNormal]
  split
  · split <;> rfl
  · rfl

theorem length_faceNormals (fv : List (Pnt K)) (orientation : Nat) (tris : List Tri)
    (nbNodes : Nat) :
    (faceNormals sqrt fv orientation tris nbNodes).length = 3 * nbNodes := by
  unfold faceNormals
  rw [length_flatMap_const _ 3 (length_nodeNormal sqrt fv orientation tris)]
  simp

theorem length_faceCoords (f : Face K) (tri : Triangulation K) :
    ((faceWorldVertices f tri).flatMap pntCoords).length = 3 * tri.nodes.length := by
  rw [length_flatMap_const pntCoords 3 (fun _ => rfl)]
  simp [faceWorldVertices]

/-- Buffer lengths and the final `vertex_offset` of the face loop,
from an arbitrary starting state. -/
theorem meshFold_lengths (shape : List (Face K)) :
    ∀ (vs : List K) (fs : List Int) (ns : List K) (off : Nat),
      (shape.foldl (meshFace sqrt) (vs, fs, ns, off)).1.length
          = vs.length + 3 * totalNodes shape ∧
      (shape.foldl (meshFace sqrt) (vs, fs, ns, off)).2.1.length
          = fs.length + 3 * totalTris shape ∧
      (shape.foldl (meshFace sqrt) (vs, fs, ns, off)).2.2.1.length
          = ns.length + 3 * totalNodes shape ∧
      (shape.foldl (meshFace sqrt) (vs, fs, ns, off)).2.2.2
          = off + totalNodes shape := by
  induction shape with
  | nil => intro vs fs ns off; simp [totalNodes, totalTris]
  | cons f rest ih =>
      intro vs fs ns off
      have hTot : totalNodes (f :: rest) = faceNodeCount f + totalNodes rest := by
        simp [totalNodes, faceNodeCount]
      have hTotT : totalTris (f :: rest) = faceTriCount f + totalTris rest := by
        simp [totalTris, faceTriCount]
      cases htri : f.triangulation with
      | none =>
          have hstep : meshFace sqrt (vs, fs, ns, off) f = (vs, fs, ns, off) := by
            simp [meshFace, htri]
          have hcnt : faceNodeCount f = 0 := by simp [faceNodeCount, htri]
          have hcntT : faceTriCount f = 0 := by simp [faceTriCount, htri]
          simpa [List.foldl_cons, hstep, hTot, hTotT, hcnt, hcntT] using ih vs fs ns off
      | some tri =>
          have hstep : meshFace sqrt (vs, fs, ns, off) f =
              (vs ++ (faceWorldVertices f tri).flatMap pntCoords,
               fs ++ faceIndices f.orientation (off : Int) tri.triangles,
               ns ++ faceNormals sqrt (faceWorldVertices f tri) f.orientation
                       tri.triangles tri.nodes.length,
               off + tri.nodes.length) := by
            simp [meshFace, htri]
          have hcnt : faceNodeCount f = tri.nodes.length := by
            simp [faceNodeCount, htri]
          have hcntT : faceTriCount f = tri.triangles.length := by
            simp [faceTriCount, htri]
          obtain ⟨h1, h2, h3, h4⟩ :=
            ih (vs ++ (faceWorldVertices f tri).flatMap pntCoords)
              (fs ++ faceIndices f.orientation (off : Int) tri.triangles)
              (ns ++ faceNormals sqrt (faceWorldVertices f tri) f.orientation
                       tri.triangles tri.nodes.length)
              (off + tri.nodes.length)
          rw [List.foldl_cons, hstep]
          refine ⟨?_, ?_, ?_, ?_⟩
          · rw [h1, List.length_append, length_faceCoords, hTot, hcnt]; ring
          · rw [h2, List.length_append, length_faceIndices, hTotT, hcntT]; ring
          · rw [h3, List.length_append, length_faceNormals, hTot, hcnt]; ring
          · rw [h4, hTot, hcnt]; ring

/-- A face with no triangulation is a no-op of the face loop. -/
theorem meshFace_skip (st : List K × List Int × List K × Nat) (f : Face K)
    (h : f.triangulation = none) : meshFace sqrt st f = st := by
  simp [meshFace, h]

/-- Indices emitted for one face stay in that face's vertex block
`[off, off + nbNodes)`. -/
theorem faceIndices_mem_block (orientation : Nat) (off : Int) (tris : List Tri)
    (nbNodes : Nat) (hwf : wfTris nbNodes tris) :
    ∀ idx ∈ faceIndices orientation off tris, off ≤ idx ∧ idx < off + nbNodes := by
  intro idx hidx
  rw [faceIndices, List.mem_flatMap] at hidx
  obtain ⟨t, ht, hmem⟩ := hidx
  obtain ⟨⟨h11, h12⟩, ⟨h21, h22⟩, ⟨h31, h32⟩⟩ := hwf t ht
  rw [triIndices] at hmem
  split at hmem <;> simp at hmem <;>
    rcases hmem with h | h | h <;> subst h <;> constructor <;> omega

/-- All index-buffer entries of the face loop lie in `[0, final
vertex_offset)`, provided the entries already present do. -/
theorem meshFold_idx_bounds {K : Type} [LinearOrderedField K] (sqrt : K → K)
    (shape : List (Face K)) :
    ∀ (vs : List K) (fs : List Int) (ns : List K) (off : Nat),
      wfShape shape →
      (∀ idx ∈ fs, 0 ≤ idx ∧ idx < (off : Int)) →
      ∀ idx ∈ (shape.foldl (meshFace sqrt) (vs, fs, ns, off)).2.1,
        0 ≤ idx ∧ idx < ((off + totalNodes shape : Nat) : Int) := by
  induction shape with
  | nil =>
      intro vs fs ns off _ hinv idx hidx
      simp only [List.foldl_nil] at hidx
      simpa [totalNodes] using hinv idx hidx
  | cons f rest ih =>
      intro vs fs ns off hwf hinv idx hidx
      have hwfRest : wfShape rest := fun g hg => hwf g (List.mem_cons_of_mem f hg)
      have hTot : totalNodes (f :: rest) = faceNodeCount f + totalNodes rest := by
        simp [totalNodes, faceNodeCount]
      cases htri : f.triangulation with
      | none =>
          rw [List.foldl_cons, meshFace_skip sqrt _ f htri] at hidx
          have hcnt : faceNodeCount f = 0 := by simp [faceNodeCount, htri]
          have := ih vs fs ns off hwfRest hinv idx hidx
          rw [hTot, hcnt]
          simpa using this
      | some tri =>
          have hwfF : wfTris tri.nodes.length tri.triangles :=
            hwf f (List.mem_cons_self f rest) tri htri
          have hstep : meshFace sqrt (vs, fs, ns, off) f =
              (vs ++ (faceWorldVertices f tri).flatMap pntCoords,
               fs ++ faceIndices f.orientation (off : Int) tri.triangles,
               ns ++ faceNormals sqrt (faceWorldVertices f tri) f.orientation
                       tri.triangles tri.nodes.length,
               off + tri.nodes.length) := by
            simp [meshFace, htri]
          rw [List.foldl_cons, hstep] at hidx
          have hinv' : ∀ j ∈ fs ++ faceIndices f.orientation (off : Int) tri.triangles,
              0 ≤ j ∧ j < ((off + tri.nodes.length : Nat) : Int) := by
            intro j hj
            rcases List.mem_append.mp hj with hold | hnew
            · have := hinv j hold
              push_cast
              omega
            · have := faceIndices_mem_block f.orientation (off : Int)
                tri.triangles tri.nodes.length hwfF j hnew
              push_cast
              push_cast at this
              omega
          have := ih _ _ _ _ hwfRest hinv' idx hidx
          have hcnt : faceNodeCount f = tri.nodes.length := by
            simp [faceNodeCount, htri]
          rw [hTot, hcnt]
          push_cast
          push_cast at this
          omega

end MeshLemmas

/-! ## Claims -/

/-- C1: for every shape whose faces each yield a triangulation, the
mesh returned by `convert_to_mesh` has a vertex buffer of length
`3 × Σ NodeCount(F_i)`, an index buffer of length
`3 × Σ TriangleCount(F_i)`, and a normal buffer of the same length as
the vertex buffer; faces with no triangulation contribute nothing to
any buffer. -/
theorem convert_to_mesh_buffer_lengths (K : Type) [LinearOrderedField K]
    (sqrt : K → K) (shape : List (Face K)) :
    ((convert_to_mesh sqrt shape).1.length = 3 * totalNodes shape ∧
     (convert_to_mesh sqrt shape).2.1.length = 3 * totalTris shape ∧
     (convert_to_mesh sqrt shape).2.2.length = (convert_to_mesh sqrt shape).1.length) ∧
    (∀ (pre post : List (Face K)) (f : Face K), f.triangulation = none →
      convert_to_mesh sqrt (pre ++ f :: post) = convert_to_mesh sqrt (pre ++ post)) := by
  constructor
  · obtain ⟨h1, h2, h3, _⟩ := meshFold_lengths sqrt shape [] [] [] 0
    refine ⟨?_, ?_, ?_⟩
    · simpa [convert_to_mesh] using h1
    · simpa [convert_to_mesh] using h2
    · simp [convert_to_mesh]
      rw [h1, h3]
  · intro pre post f h
    unfold convert_to_mesh
    rw [List.foldl_append, List.foldl_append, List.foldl_cons, meshFace_skip sqrt _ f h]

/-- C1 witness: dropping an untriangulated face from a concrete
two-face shape leaves the mesh unchanged. -/
theorem convert_to_mesh_buffer_lengths_witness :
    convert_to_mesh sqrtQ ([faceFwd ℚ] ++ faceNone ℚ :: []) =
      convert_to_mesh sqrtQ ([faceFwd ℚ] ++ []) :=
  (convert_to_mesh_buffer_lengths ℚ sqrtQ []).2 [faceFwd ℚ] [] (faceNone ℚ) rfl

/-- C2: assuming every per-face triangle's node indices lie in
`[1, NodeCount]` of its own face, every entry of the index buffer is
nonnegative and strictly below the total vertex count
(`len(vertices)/3 = Σ NodeCount`), and each face's triangles reference
only that face's own vertex block `[vertex_offset, vertex_offset +
NodeCount)`. -/
theorem convert_to_mesh_index_in_range (K : Type) [LinearOrderedField K]
    (sqrt : K → K) (shape : List (Face K)) (hwf : wfShape shape) :
    (∀ idx ∈ (convert_to_mesh sqrt shape).2.1,
        0 ≤ idx ∧ idx < (totalNodes shape : Int)) ∧
    (convert_to_mesh sqrt shape).1.length = 3 * totalNodes shape ∧
    (∀ (orientation : Nat) (off : Int) (tris : List Tri) (nbNodes : Nat),
        wfTris nbNodes tris →
        ∀ idx ∈ faceIndices orientation off tris, off ≤ idx ∧ idx < off + nbNodes) := by
  refine ⟨?_, by simpa [convert_to_mesh] using (meshFold_lengths sqrt shape [] [] [] 0).1,
    faceIndices_mem_block⟩
  intro idx hidx
  have hmem : idx ∈ (shape.foldl (meshFace sqrt) ([], [], [], 0)).2.1 := by
    simpa [convert_to_mesh] using hidx
  have := meshFold_idx_bounds sqrt shape [] [] [] 0 hwf (by simp) idx hmem
  simpa using this

/-- C2 witness: in the concrete one-triangle shape, the index-buffer
entry `2` is in range. -/
theorem convert_to_mesh_index_in_range_witness :
    0 ≤ (2 : Int) ∧ (2 : Int) < (totalNodes [faceFwd ℚ] : Int) :=
  (convert_to_mesh_index_in_range ℚ sqrtQ [faceFwd ℚ]
      (by
        intro f hf tri htri
        simp only [List.mem_singleton] at hf
        subst hf
        simp only [faceFwd, faceNone] at htri
        injection htri with h
        subst h
        intro t ht
        simp only [triFix, List.mem_singleton] at ht
        subst ht
        simp [triFix])).1
    2 (by decide)

/-- C3: a triangulated face appended to a shape contributes, at the
running `vertex_offset` (the node count of the preceding faces),
global indices `idx_k = n_k - 1 + vertex_offset` per source triangle
`(n1, n2, n3)`: emitted as `(idx1, idx3, idx2)` (last two swapped)
when the orientation flag is `1` (Reversed), and as `(idx1, idx2,
idx3)` unchanged otherwise (Forward). -/
theorem convert_to_mesh_orientation_winding (K : Type) [LinearOrderedField K]
    (sqrt : K → K) (fs : List (Face K)) (f : Face K) (tri : Triangulation K)
    (h : f.triangulation = some tri) :
    (convert_to_mesh sqrt (fs ++ [f])).2.1 =
      (convert_to_mesh sqrt fs).2.1 ++
        tri.triangles.flatMap (fun t =>
          let idx1 : Int := (t.n1 : Int) - 1 + (totalNodes fs : Int)
          let idx2 : Int := (t.n2 : Int) - 1 + (totalNodes fs : Int)
          let idx3 : Int := (t.n3 : Int) - 1 + (totalNodes fs : Int)
          if f.orientation = 1 then [idx1, idx3, idx2] else [idx1, idx2, idx3]) := by
  have hoff : (fs.foldl (meshFace sqrt) ([], [], [], 0)).2.2.2 = totalNodes fs := by
    simpa using (meshFold_lengths sqrt fs [] [] [] 0).2.2.2
  unfold convert_to_mesh
  rw [List.foldl_append, List.foldl_cons, List.foldl_nil]
  simp only [meshFace, h]
  rw [hoff]
  rfl

/-- C3 witness: the concrete Reversed single-triangle face emits
`(0, 2, 1)`. -/
theorem convert_to_mesh_orientation_winding_witness :
    (convert_to_mesh sqrtQ ([] ++ [faceRev ℚ])).2.1 =
      (convert_to_mesh sqrtQ []).2.1 ++
        (triFix ℚ).triangles.flatMap (fun t =>
          let idx1 : Int := (t.n1 : Int) - 1 + (totalNodes ([] : List (Face ℚ)) : Int)
          let idx2 : Int := (t.n2 : Int) - 1 + (totalNodes ([] : List (Face ℚ)) : Int)
          let idx3 : Int := (t.n3 : Int) - 1 + (totalNodes ([] : List (Face ℚ)) : Int)
          if (faceRev ℚ).orientation = 1 then [idx1, idx3, idx2]
          else [idx1, idx2, idx3]) :=
  convert_to_mesh_orientation_winding ℚ sqrtQ [] (faceRev ℚ) (triFix ℚ) rfl

theorem norm3_normalize_unit (x y z : ℝ)
    (h : 0 < norm3 Real.sqrt (x, y, z)) :
    norm3 Real.sqrt
      (x / norm3 Real.sqrt (x, y, z), y / norm3 Real.sqrt (x, y, z),
       z / norm3 Real.sqrt (x, y, z)) = 1 := by
  have hS : 0 < x * x + y * y + z * z := by
    have := Real.sqrt_pos.mp (by simpa [norm3] using h)
    simpa using this
  have hL : Real.sqrt (x * x + y * y + z * z) * Real.sqrt (x * x + y * y + z * z)
      = x * x + y * y + z * z := Real.mul_self_sqrt hS.le
  simp only [norm3]
  have harg :
      x / Real.sqrt (x * x + y * y + z * z) * (x / Real.sqrt (x * x + y * y + z * z)) +
      y / Real.sqrt (x * x + y * y + z * z) * (y / Real.sqrt (x * x + y * y + z * z)) +
      z / Real.sqrt (x * x + y * y + z * z) * (z / Real.sqrt (x * x + y * y + z * z)) = 1 := by
    have hLpos : 0 < Real.sqrt (x * x + y * y + z * z) := Real.sqrt_pos.mpr hS
    field_simp
  rw [harg, Real.sqrt_one]

/-- Every entry the per-node emission produces is a unit vector. -/
theorem nodeNormalT_unit (fv : List (Pnt ℝ)) (orientation : Nat) (tris : List Tri)
    (i : Nat) :
    norm3 Real.sqrt (nodeNormalT Real.sqrt fv orientation tris i) = 1 := by
  unfold nodeNormalT
  split
  · dsimp only
    split
    · exact norm3_normalize_unit _ _ _ (by assumption)
    · norm_num [norm3, Real.sqrt_one]
  · norm_num [norm3, Real.sqrt_one]

section TriplesLemmas

variable {K : Type} [LinearOrderedField K]

theorem triples_flatMap3 {α : Type} (g : α → List K) (tf : α → K × K × K)
    (hg : ∀ a, g a = [(tf a).1, (tf a).2.1, (tf a).2.2]) :
    ∀ l : List α, triples (l.flatMap g) = l.map tf := by
  intro l
  induction l with
  | nil => simp [triples]
  | cons a t ih =>
      rw [List.flatMap_cons, hg a]
      simpa [triples] using ih

theorem nodeNormal_eq_T (sqrt : K → K) (fv : List (Pnt K)) (orientation : Nat)
    (tris : List Tri) (i : Nat) :
    nodeNormal sqrt fv orientation tris i =
      [(nodeNormalT sqrt fv orientation tris i).1,
       (nodeNormalT sqrt fv orientation tris i).2.1,
       (nodeNormalT sqrt fv orientation tris i).2.2] := by
  unfold nodeNormal nodeNormalT
  split
  · dsimp only
    split <;> rfl
  · rfl

theorem triples_faceNormals (sqrt : K → K) (fv : List (Pnt K)) (orientation : Nat)
    (tris : List Tri) (nbNodes : Nat) :
    triples (faceNormals sqrt fv orientation tris nbNodes) =
      (List.range nbNodes).map (nodeNormalT sqrt fv orientation tris) :=
  triples_flatMap3 _ _ (nodeNormal_eq_T sqrt fv orientation tris) _

theorem triples_append (a b : List K) (h : a.length % 3 = 0) :
    triples (a ++ b) = triples a ++ triples b := by
  match a with
  | [] => rfl
  | [x] => simp at h
  | [x, y] => simp at h
  | x :: y :: z :: r =>
      have hr : r.length % 3 = 0 := by
        simp only [List.length_cons] at h
        omega
      simp only [List.cons_append, triples, List.append_eq]
      rw [triples_append r b hr]

end TriplesLemmas

/-- All normal-buffer triples of the face loop are unit vectors,
provided the triples already present are. -/
theorem meshFold_normals_unit (shape : List (Face ℝ)) :
    ∀ (vs : List ℝ) (fs : List Int) (ns : List ℝ) (off : Nat),
      3 ∣ ns.length →
      (∀ v ∈ triples ns, norm3 Real.sqrt v = 1) →
      ∀ v ∈ triples ((shape.foldl (meshFace Real.sqrt) (vs, fs, ns, off)).2.2.1),
        norm3 Real.sqrt v = 1 := by
  induction shape with
  | nil =>
      intro vs fs ns off _ hinv v hv
      simp only [List.foldl_nil] at hv
      exact hinv v hv
  | cons f rest ih =>
      intro vs fs ns off hdvd hinv v hv
      cases htri : f.triangulation with
      | none =>
          rw [List.foldl_cons, meshFace_skip Real.sqrt _ f htri] at hv
          exact ih vs fs ns off hdvd hinv v hv
      | some tri =>
          have hstep : meshFace Real.sqrt (vs, fs, ns, off) f =
              (vs ++ (faceWorldVertices f tri).flatMap pntCoords,
               fs ++ faceIndices f.orientation (off : Int) tri.triangles,
               ns ++ faceNormals Real.sqrt (faceWorldVertices f tri) f.orientation
                       tri.triangles tri.nodes.length,
               off + tri.nodes.length) := by
            simp [meshFace, htri]
          rw [List.foldl_cons, hstep] at hv
          have hlen : (faceNormals Real.sqrt (faceWorldVertices f tri) f.orientation
              tri.triangles tri.nodes.length).length = 3 * tri.nodes.length :=
            length_faceNormals Real.sqrt _ _ _ _
          have hdvd' : 3 ∣ (ns ++ faceNormals Real.sqrt (faceWorldVertices f tri)
              f.orientation tri.triangles tri.nodes.length).length := by
            rw [List.length_append, hlen]
            exact Nat.dvd_add hdvd ⟨tri.nodes.length, rfl⟩
          have hinv' : ∀ w ∈ triples (ns ++ faceNormals Real.sqrt
              (faceWorldVertices f tri) f.orientation tri.triangles tri.nodes.length),
              norm3 Real.sqrt w = 1 := by
            intro w hw
            rw [triples_append _ _ (Nat.mod_eq_zero_of_dvd hdvd)] at hw
            rcases List.mem_append.mp hw with hold | hnew
            · exact hinv w hold
            · rw [triples_faceNormals] at hnew
              obtain ⟨j, _, hj⟩ := List.mem_map.mp hnew
              rw [← hj]
              exact nodeNormalT_unit _ _ _ _
          exact ih _ _ _ _ hdvd' hinv' v hv

theorem triples_faceNormals_getD {K : Type} [LinearOrderedField K] (sqrt : K → K)
    (fv : List (Pnt K)) (orientation : Nat) (tris : List Tri) (nbNodes i : Nat)
    (h : i < nbNodes) :
    (triples (faceNormals sqrt fv orientation tris nbNodes)).getD i (0, 0, 0) =
      nodeNormalT sqrt fv orientation tris i := by
  rw [triples_faceNormals, List.getD_eq_getElem?_getD, List.getElem?_map,
    List.getElem?_range h]
  rfl

/-- C4: every per-vertex normal emitted by `convert_to_mesh` is a unit
vector; per node, it is the exact normalization of the accumulated
per-triangle sum when that sum has positive length, and the `(0,0,1)`
fallback exactly when the accumulated sum has zero length or the node
appears in no triangle of its face. -/
theorem convert_to_mesh_normals_unit_or_default (shape : List (Face ℝ)) :
    (∀ v ∈ triples ((convert_to_mesh Real.sqrt shape).2.2),
        norm3 Real.sqrt v = 1) ∧
    (∀ (fv : List (Pnt ℝ)) (orientation : Nat) (tris : List Tri) (nbNodes i : Nat),
      i < nbNodes →
      (mentioned tris i = true →
        0 < norm3 Real.sqrt (accumNormals Real.sqrt fv orientation tris i) →
        (triples (faceNormals Real.sqrt fv orientation tris nbNodes)).getD i (0, 0, 0) =
          ((accumNormals Real.sqrt fv orientation tris i).1 /
             norm3 Real.sqrt (accumNormals Real.sqrt fv orientation tris i),
           (accumNormals Real.sqrt fv orientation tris i).2.1 /
             norm3 Real.sqrt (accumNormals Real.sqrt fv orientation tris i),
           (accumNormals Real.sqrt fv orientation tris i).2.2 /
             norm3 Real.sqrt (accumNormals Real.sqrt fv orientation tris i))) ∧
      (mentioned tris i = true →
        norm3 Real.sqrt (accumNormals Real.sqrt fv orientation tris i) = 0 →
        (triples (faceNormals Real.sqrt fv orientation tris nbNodes)).getD i (0, 0, 0) =
          (0, 0, 1)) ∧
      (mentioned tris i = false →
        (triples (faceNormals Real.sqrt fv orientation tris nbNodes)).getD i (0, 0, 0) =
          (0, 0, 1))) := by
  constructor
  · intro v hv
    have hv' : v ∈ triples ((shape.foldl (meshFace Real.sqrt) ([], [], [], 0)).2.2.1) := hv
    exact meshFold_normals_unit shape [] [] [] 0 ⟨0, rfl⟩
      (fun w hw => absurd hw (List.not_mem_nil w)) v hv'
  · intro fv orientation tris nbNodes i h
    have hT := triples_faceNormals_getD Real.sqrt fv orientation tris nbNodes i h
    refine ⟨?_, ?_, ?_⟩
    · intro hm hpos
      rw [hT]
      simp only [nodeNormalT, hm, if_true]
      rw [if_pos hpos]
    · intro hm hzero
      rw [hT]
      simp only [nodeNormalT, hm, if_true]
      rw [hzero]
      simp
    · intro hm
      rw [hT]
      simp [nodeNormalT, hm]

/-- C4 witness: the concrete isolated-node face emits the exact
`(0,0,1)` fallback, which is a unit vector. -/
theorem convert_to_mesh_normals_unit_or_default_witness :
    norm3 Real.sqrt ((0 : ℝ), (0 : ℝ), (1 : ℝ)) = 1 :=
  (convert_to_mesh_normals_unit_or_default [faceLone ℝ]).1 (0, 0, 1)
    (List.mem_singleton.mpr rfl)

theorem norm3_neg (v : ℝ × ℝ × ℝ) :
    norm3 Real.sqrt (-v.1, -v.2.1, -v.2.2) = norm3 Real.sqrt v := by
  simp only [norm3]
  ring_nf

theorem sum3_mul_self_eq_zero {a b c : ℝ} (h : a * a + b * b + c * c = 0) :
    a = 0 ∧ b = 0 ∧ c = 0 := by
  have ha : a * a = 0 := by nlinarith [mul_self_nonneg a, mul_self_nonneg b, mul_self_nonneg c]
  have hb : b * b = 0 := by nlinarith [mul_self_nonneg a, mul_self_nonneg b, mul_self_nonneg c]
  have hc : c * c = 0 := by nlinarith [mul_self_nonneg a, mul_self_nonneg b, mul_self_nonneg c]
  exact ⟨mul_self_eq_zero.mp ha, mul_self_eq_zero.mp hb, mul_self_eq_zero.mp hc⟩

/-- C5 counterexample: on the rotated fixture face, the per-triangle
normal contribution computed by the code (from the transformed
`face_vertices` list) differs from the contribution the claim
describes (from the pre-transform node coordinates). -/
theorem triNormal_face_local_counterexample :
    triNormal Real.sqrt (faceWorldVertices (faceRot ℝ) (triFix ℝ))
        (faceRot ℝ).orientation t123 ≠
      triNormal Real.sqrt (triFix ℝ).nodes (faceRot ℝ).orientation t123 := by
  have hL : triNormal Real.sqrt (faceWorldVertices (faceRot ℝ) (triFix ℝ))
      (faceRot ℝ).orientation t123 = ((0 : ℝ), (-1 : ℝ), (0 : ℝ)) := by
    norm_num [triNormal, rawCross, norm3, faceWorldVertices, applyLoc, faceRot,
      rotX, triFix, t123, List.getD, Real.sqrt_one]
  have hR : triNormal Real.sqrt (triFix ℝ).nodes (faceRot ℝ).orientation t123 =
      ((0 : ℝ), (0 : ℝ), (1 : ℝ)) := by
    norm_num [triNormal, rawCross, norm3, faceRot, triFix, t123, List.getD,
      Real.sqrt_one]
  rw [hL, hR]
  intro hEq
  have := congrArg (fun v => v.2.1) hEq
  norm_num at this

/-- C5 (amended): the per-triangle normal contribution is the cross
product `(v2-v1)×(v3-v1)` of edge vectors taken from the transformed
(world) coordinate list — the very list whose coordinates are appended
to the vertex buffer — normalized (to a unit vector) when its length
is positive, negated when the orientation flag is `1` (Reversed), and
the zero vector (accumulating no direction) when the cross-product
length is zero. -/
theorem triNormal_world_coords :
    (∀ (f : Face ℝ) (tri : Triangulation ℝ), f.triangulation = some tri →
      (convert_to_mesh Real.sqrt [f]).2.2 =
        faceNormals Real.sqrt (faceWorldVertices f tri) f.orientation
          tri.triangles tri.nodes.length ∧
      (convert_to_mesh Real.sqrt [f]).1 =
        (faceWorldVertices f tri).flatMap pntCoords) ∧
    (∀ (fv : List (Pnt ℝ)) (orientation : Nat) (t : Tri),
      (0 < norm3 Real.sqrt (rawCross fv t) →
        triNormal Real.sqrt fv orientation t =
          (if orientation = 1 then
            (-((rawCross fv t).1 / norm3 Real.sqrt (rawCross fv t)),
             -((rawCross fv t).2.1 / norm3 Real.sqrt (rawCross fv t)),
             -((rawCross fv t).2.2 / norm3 Real.sqrt (rawCross fv t)))
          else
            ((rawCross fv t).1 / norm3 Real.sqrt (rawCross fv t),
             (rawCross fv t).2.1 / norm3 Real.sqrt (rawCross fv t),
             (rawCross fv t).2.2 / norm3 Real.sqrt (rawCross fv t))) ∧
        norm3 Real.sqrt (triNormal Real.sqrt fv orientation t) = 1) ∧
      (norm3 Real.sqrt (rawCross fv t) = 0 →
        triNormal Real.sqrt fv orientation t = (0, 0, 0) ∧
        ∀ (m : Nat → ℝ × ℝ × ℝ) (i : Nat),
          addNormal m i (triNormal Real.sqrt fv orientation t) = m)) := by
  constructor
  · intro f tri h
    constructor
    · simp [convert_to_mesh, meshFace, h]
    · simp [convert_to_mesh, meshFace, h]
  · intro fv orientation t
    constructor
    · intro hpos
      have hval : triNormal Real.sqrt fv orientation t =
          (if orientation = 1 then
            (-((rawCross fv t).1 / norm3 Real.sqrt (rawCross fv t)),
             -((rawCross fv t).2.1 / norm3 Real.sqrt (rawCross fv t)),
             -((rawCross fv t).2.2 / norm3 Real.sqrt (rawCross fv t)))
          else
            ((rawCross fv t).1 / norm3 Real.sqrt (rawCross fv t),
             (rawCross fv t).2.1 / norm3 Real.sqrt (rawCross fv t),
             (rawCross fv t).2.2 / norm3 Real.sqrt (rawCross fv t))) := by
        simp only [triNormal]
        rw [if_pos hpos]
      refine ⟨hval, ?_⟩
      rw [hval]
      have hunit : norm3 Real.sqrt
          ((rawCross fv t).1 / norm3 Real.sqrt (rawCross fv t),
           (rawCross fv t).2.1 / norm3 Real.sqrt (rawCross fv t),
           (rawCross fv t).2.2 / norm3 Real.sqrt (rawCross fv t)) = 1 :=
        norm3_normalize_unit (rawCross fv t).1 (rawCross fv t).2.1 (rawCross fv t).2.2
          hpos
      split
      · rw [norm3_neg
          ((rawCross fv t).1 / norm3 Real.sqrt (rawCross fv t),
           (rawCross fv t).2.1 / norm3 Real.sqrt (rawCross fv t),
           (rawCross fv t).2.2 / norm3 Real.sqrt (rawCross fv t))]
        exact hunit
      · exact hunit
    · intro hzero
      have hS : (rawCross fv t).1 * (rawCross fv t).1 +
          (rawCross fv t).2.1 * (rawCross fv t).2.1 +
          (rawCross fv t).2.2 * (rawCross fv t).2.2 = 0 := by
        have hle : (rawCross fv t).1 * (rawCross fv t).1 +
            (rawCross fv t).2.1 * (rawCross fv t).2.1 +
            (rawCross fv t).2.2 * (rawCross fv t).2.2 ≤ 0 :=
          Real.sqrt_eq_zero'.mp (by simpa [norm3] using hzero)
        nlinarith [mul_self_nonneg (rawCross fv t).1,
          mul_self_nonneg (rawCross fv t).2.1, mul_self_nonneg (rawCross fv t).2.2]
      obtain ⟨h1, h2, h3⟩ := sum3_mul_self_eq_zero hS
      have hvalz : triNormal Real.sqrt fv orientation t = (0, 0, 0) := by
        simp only [triNormal]
        rw [hzero]
        rw [if_neg (lt_irrefl (0 : ℝ))]
        split
        · simp [h1, h2, h3]
        · ext <;> simp [h1, h2, h3]
      refine ⟨hvalz, ?_⟩
      intro m i
      rw [hvalz]
      funext j
      simp only [addNormal]
      split
      · simp
      · rfl

/-- C5 witness: on the concrete rotated face, the normal buffer of the
assembled mesh is computed from the transformed coordinate list — the
same list flattened into the vertex buffer. -/
theorem triNormal_world_coords_witness :
    (convert_to_mesh Real.sqrt [faceRot ℝ]).2.2 =
      faceNormals Real.sqrt (faceWorldVertices (faceRot ℝ) (triFix ℝ))
        (faceRot ℝ).orientation (triFix ℝ).triangles (triFix ℝ).nodes.length ∧
    (convert_to_mesh Real.sqrt [faceRot ℝ]).1 =
      (faceWorldVertices (faceRot ℝ) (triFix ℝ)).flatMap pntCoords :=
  triNormal_world_coords.1 (faceRot ℝ) (triFix ℝ) rfl

theorem foldl_overwrite {α : Type} :
    ∀ (l : List α) (x : Option α),
      l.foldl (fun _ obj => some obj) x =
        match l.getLast? with
        | some a => some a
        | none => x := by
  intro l
  induction l with
  | nil => intro x; rfl
  | cons a t ih =>
      intro x
      rw [List.foldl_cons, ih (some a)]
      cases t with
      | nil => rfl
      | cons b t' =>
          rw [List.getLast?_cons_cons]
          cases hl : (b :: t').getLast? with
          | none => exact absurd hl (by simp)
          | some c => rfl

/-- C6: for every script run by `/execute` (safe, finishing within the
deadline, not raising), only the last `show_object` call determines the
returned shape; when `show_object` is never called the handler answers
the 400 `No result - show_object() not called` error instead of
crashing. -/
theorem execute_last_publish_wins (α : Type) (s : Script α) (tp : Option Nat) :
    runResult s = s.publishes.getLast? ∧
    (∀ d, s.duration = some d → d ≤ tp.getD 120 → s.raises = none →
      validate_safe_code s.code = true →
      ((s.publishes.getLast? = none →
        executeModel s tp =
          Resp.mk 400 (some "No result - show_object() not called") none none none) ∧
       (∀ a, s.publishes.getLast? = some a →
        executeModel s tp = Resp.mk 200 none none none (some a)))) := by
  have hrr : runResult s = s.publishes.getLast? := by
    rw [runResult, foldl_overwrite]
    cases s.publishes.getLast? <;> rfl
  refine ⟨hrr, ?_⟩
  intro d hd hle hr hsafe
  have hrun : run_with_timeout s (tp.getD 120) = Except.ok (runResult s) := by
    simp [run_with_timeout, hd, hle, hr]
  constructor
  · intro hlast
    have hres : runResult s = none := hrr.trans hlast
    simp [executeModel, hsafe, executePipeline, hrun, hres]
  · intro a hlast
    have hres : runResult s = some a := hrr.trans hlast
    simp [executeModel, hsafe, executePipeline, hrun, hres]

/-- C6 witness: the concrete script publishing `1` then `2` yields
shape `2`. -/
theorem execute_last_publish_wins_witness :
    executeModel sPub none = Resp.mk 200 none none none (some 2) :=
  ((execute_last_publish_wins Nat sPub none).2 1 rfl (by norm_num) rfl
    (by decide)).2 2 rfl

/-- C7: with deadline `T = timeoutParam.getD 120` (120 when absent), a
worker that has not completed by `T` makes `run_with_timeout` raise
`TimeoutException` and `/execute` answer the 500 timeout error (type
`timeout` with its canned suggestion) while the daemon worker is
abandoned, still running; a worker completing within `T` has its
result or raised exception propagated. -/
theorem execute_timeout_behavior (α : Type) (s : Script α) (tp : Option Nat) :
    (tp = none → tp.getD 120 = 120) ∧
    (¬ doneBy s (tp.getD 120) →
      run_with_timeout s (tp.getD 120) =
        Except.error (RunErr.timeoutErr (tp.getD 120)) ∧
      workerStillRunning s (tp.getD 120) = true ∧
      (validate_safe_code s.code = true →
        executeModel s tp =
          Resp.mk 500 (some (timeoutMsg (tp.getD 120))) (some "timeout")
            (some (get_error_suggestion "timeout")) none)) ∧
    (doneBy s (tp.getD 120) →
      (∀ m, s.raises = some m →
        run_with_timeout s (tp.getD 120) = Except.error (RunErr.raised m)) ∧
      (s.raises = none →
        run_with_timeout s (tp.getD 120) = Except.ok (runResult s))) := by
  refine ⟨fun h => by rw [h]; rfl, ?_, ?_⟩
  · intro hnd
    cases hs : s.duration with
    | none =>
        refine ⟨by simp [run_with_timeout, hs], by simp [workerStillRunning, hs], ?_⟩
        intro hsafe
        simp [executeModel, hsafe, executePipeline, run_with_timeout, hs]
    | some d =>
        have hT : ¬ d ≤ tp.getD 120 := fun hle => hnd ⟨d, hs, hle⟩
        refine ⟨by simp [run_with_timeout, hs, hT], ?_, ?_⟩
        · simp only [workerStillRunning, hs, decide_eq_true_eq]
          omega
        · intro hsafe
          simp [executeModel, hsafe, executePipeline, run_with_timeout, hs, hT]
  · rintro ⟨d, hs, hle⟩
    constructor
    · intro m hm
      simp [run_with_timeout, hs, hle, hm]
    · intro hr
      simp [run_with_timeout, hs, hle, hr]

/-- C7 witness: the never-finishing script with no explicit timeout is
reported as a 500 timeout at the default 120s deadline. -/
theorem execute_timeout_behavior_witness :
    executeModel sLoop none =
      Resp.mk 500 (some (timeoutMsg 120)) (some "timeout")
        (some (get_error_suggestion "timeout")) none :=
  ((execute_timeout_behavior Nat sLoop none).2.1
    (by rintro ⟨d, hd, -⟩; exact Option.noConfusion hd)).2.2 (by decide)

/-- C8: `/execute` answers the fixed 400 `unsafe imports` response,
before any execution, exactly when the script text contains one of the
five dangerous substrings; scripts containing none proceed to the
execution pipeline. -/
theorem execute_denylist (α : Type) (s : Script α) (tp : Option Nat) :
    ((strIn "subprocess" s.code = true ∨ strIn "os.system" s.code = true ∨
      strIn "eval(" s.code = true ∨ strIn "__import__" s.code = true ∨
      strIn "open(" s.code = true) ↔ executeModel s tp = unsafeResp α) ∧
    (validate_safe_code s.code = true →
      executeModel s tp = executePipeline s (tp.getD 120)) := by
  have hval : validate_safe_code s.code = false ↔
      (strIn "subprocess" s.code = true ∨ strIn "os.system" s.code = true ∨
       strIn "eval(" s.code = true ∨ strIn "__import__" s.code = true ∨
       strIn "open(" s.code = true) := by
    simp only [validate_safe_code, Bool.not_eq_false', dangerous, List.any_cons,
      List.any_nil, Bool.or_false, Bool.or_eq_true]
  constructor
  · constructor
    · intro hdis
      have hv : validate_safe_code s.code = false := hval.mpr hdis
      simp [executeModel, hv]
    · intro heq
      by_cases hv : validate_safe_code s.code = true
      · exfalso
        rw [show executeModel s tp = executePipeline s (tp.getD 120) from by
          simp [executeModel, hv]] at heq
        cases hrw : run_with_timeout s (tp.getD 120) with
        | error e =>
            cases e with
            | timeoutErr t =>
                rw [show executePipeline s (tp.getD 120) =
                    Resp.mk 500 (some (timeoutMsg t)) (some "timeout")
                      (some (get_error_suggestion "timeout")) none from by
                  simp [executePipeline, hrw]] at heq
                simp [unsafeResp, Resp.mk.injEq] at heq
            | raised m =>
                rw [show executePipeline s (tp.getD 120) =
                    Resp.mk 500 (some m) (some (categorize_cadquery_error m))
                      (some (get_error_suggestion (categorize_cadquery_error m)))
                      none from by simp [executePipeline, hrw]] at heq
                simp [unsafeResp, Resp.mk.injEq] at heq
        | ok r =>
            cases r with
            | none =>
                rw [show executePipeline s (tp.getD 120) =
                    Resp.mk 400 (some "No result - show_object() not called")
                      none none none from by simp [executePipeline, hrw]] at heq
                have := congrArg Resp.error heq
                simp only [unsafeResp] at this
                exact absurd this (by decide)
            | some a =>
                rw [show executePipeline s (tp.getD 120) =
                    Resp.mk 200 none none none (some a) from by
                  simp [executePipeline, hrw]] at heq
                simp [unsafeResp, Resp.mk.injEq] at heq
      · exact hval.mp (by simpa using hv)
  · intro hsafe
    simp [executeModel, hsafe]

/-- C8 witness: the concrete script containing `eval(` is rejected
with the fixed 400 unsafe response. -/
theorem execute_denylist_witness :
    executeModel sEval none = unsafeResp Nat :=
  (execute_denylist Nat sEval none).1.mp (Or.inr (Or.inr (Or.inl (by decide))))

/-- C9: `categorize_cadquery_error` is first-match-wins classification
over the fixed ordered keyword-group table (so a message matching both
the wire group and the fillet keyword is `unclosed_wire`), always
returns one of the seven categories, is case-insensitive (it depends
only on the lowered message), and `get_error_suggestion` is non-empty
on every category. -/
theorem classify_error_spec :
    (∀ msg, categorize_cadquery_error msg = specClassify specGroups msg) ∧
    (∀ msg, categorize_cadquery_error msg = "geometric_invalid" ∨
      categorize_cadquery_error msg = "unclosed_wire" ∨
      categorize_cadquery_error msg = "fillet_error" ∨
      categorize_cadquery_error msg = "boolean_operation" ∨
      categorize_cadquery_error msg = "out_of_memory" ∨
      categorize_cadquery_error msg = "timeout" ∨
      categorize_cadquery_error msg = "general") ∧
    (∀ msg1 msg2, msg1.toLower = msg2.toLower →
      categorize_cadquery_error msg1 = categorize_cadquery_error msg2) ∧
    (get_error_suggestion "geometric_invalid" ≠ "" ∧
     get_error_suggestion "unclosed_wire" ≠ "" ∧
     get_error_suggestion "fillet_error" ≠ "" ∧
     get_error_suggestion "boolean_operation" ≠ "" ∧
     get_error_suggestion "out_of_memory" ≠ "" ∧
     get_error_suggestion "timeout" ≠ "" ∧
     get_error_suggestion "general" ≠ "") := by
  refine ⟨?_, ?_, ?_, by decide⟩
  · intro msg
    simp only [categorize_cadquery_error, specClassify, specGroups, List.any_cons,
      List.any_nil, Bool.or_false, Bool.or_assoc]
  · intro msg
    simp only [categorize_cadquery_error]
    split_ifs <;> simp
  · intro msg1 msg2 h
    simp only [categorize_cadquery_error, h]

/-- C9 witness: the case-insensitivity conjunct applied at a concrete
message. -/
theorem classify_error_spec_witness :
    categorize_cadquery_error "Wire not closed" =
      categorize_cadquery_error "Wire not closed" :=
  classify_error_spec.2.2.1 "Wire not closed" "Wire not closed" rfl

/-- C10: `/export` runs the script with no denylist check (its
response is independent of the script text) and no deadline — a script
`/execute` rejects as unsafe is executed and, when it finishes having
published a shape, exported; a script that never finishes leaves the
caller blocked with no response at all. -/
theorem export_no_guard_no_deadline (α : Type) (s t : Script α) (tp : Option Nat) :
    (s.publishes = t.publishes → s.raises = t.raises → s.duration = t.duration →
      exportModel s = exportModel t) ∧
    (validate_safe_code s.code = false → executeModel s tp = unsafeResp α) ∧
    (∀ a d, validate_safe_code s.code = false → s.raises = none →
      runResult s = some a → s.duration = some d →
      exportModel s = some (Resp.mk 200 none none none (some a))) ∧
    (s.duration = none → exportModel s = none) := by
  refine ⟨?_, ?_, ?_, ?_⟩
  · intro h1 h2 h3
    simp only [exportModel, runResult, h1, h2, h3]
  · intro hv
    simp [executeModel, hv]
  · intro a d hv hr hres hd
    simp [exportModel, hd, hr, hres]
  · intro hd
    simp [exportModel, hd]

/-- C10 witness: the concrete unsafe script is executed and exported
by `/export` (while `/execute` would reject it). -/
theorem export_no_guard_no_deadline_witness :
    exportModel sEvalOk = some (Resp.mk 200 none none none (some 7)) :=
  (export_no_guard_no_deadline Nat sEvalOk sEvalOk none).2.2.1 7 0 (by decide)
    rfl rfl rfl

end CQServer
